import Mathlib

/-!
Shallow embedding of the deployment safety pipeline of a contract CLI:
artifact resolution (`getDeployableFilesFromDir`), schema diffing
(`compareTables` / `extractStruct`), on-chain data risk assessment
(`checkDataExists`), error classification (`getHintForError`), and the
orchestrating pipeline (`SetContract.run`), together with theorems that
settle the specification claims C1–C10 against these definitions.

Conventions of the embedding:
  * JavaScript `undefined` results of lookups become `Option.none`;
    lodash `isEqual` (deep structural equality) becomes decidable
    equality on the corresponding inductive value types, so
    `isEqual(undefined, undefined) = true` becomes `(none = none) = True`.
  * A thrown exception becomes an `Except.error` result (or a dedicated
    terminal outcome of the pipeline model).
  * Chain I/O (RPC queries, transactions) and operator prompts are
    oracles passed in as explicit parameters of the model.
-/

/-- One field of a record descriptor, as in the chain ABI format:
`{name, type}`. -/
structure AbiField where
  name : String
  type : String
deriving DecidableEq, Repr

/-- One record descriptor (`struct` in the ABI): `{name, base, fields}`.
Lodash `isEqual` on two such objects is field-for-field deep equality,
embedded as `DecidableEq`. -/
structure AbiStruct where
  name : String
  base : String
  fields : List AbiField
deriving DecidableEq, Repr

/-- One table descriptor of the ABI.  The differ reads only `name` and
`type` (the name of the record descriptor backing the table); the index
metadata carried by the concrete wire format is not consulted by any code
under verification and is omitted. -/
structure AbiTable where
  name : String
  type : String
deriving DecidableEq, Repr

/-- The interface schema: an ordered list of record descriptors and an
ordered list of table descriptors. -/
structure Abi where
  structs : List AbiStruct
  tables : List AbiTable
deriving DecidableEq, Repr

/-- Model of `extractStruct(abiStructs, structName)`: first record descriptor with
the given name, `none` when the lookup misses (JS `Array.find` returning
`undefined`). -/
def extractStruct (abiStructs : List AbiStruct) (structName : String) :
    Option AbiStruct :=
  abiStructs.find? (fun item => item.name == structName)

/-- Result of the differ: table names classified as removed or updated. -/
structure DiffResult where
  removed : List String
  updated : List String
deriving DecidableEq, Repr

/-- Body of the `reduce` inside `compareTables`, processing one table of
the existing schema:
  * table name absent from the candidate's tables (JS `findIndex < 0`)
    → appended to `removed`;
  * otherwise both record descriptors are looked up under the *existing*
    table's `type` name and compared deeply (`isEqual`); a difference
    → appended to `updated`. -/
def diffStep (existingABI newAbi : Abi) (accum : DiffResult)
    (table : AbiTable) : DiffResult :=
  if (newAbi.tables.find? (fun item => item.name == table.name)).isNone then
    { accum with removed := accum.removed ++ [table.name] }
  else
    let existingStruct := extractStruct existingABI.structs table.type
    let newStruct := extractStruct newAbi.structs table.type
    if existingStruct ≠ newStruct then
      { accum with updated := accum.updated ++ [table.name] }
    else
      accum

/-- Model of `compareTables(existingABI, newAbi)`: fold of `diffStep` over the
existing schema's tables starting from `{removed: [], updated: []}`. -/
def compareTables (existingABI newAbi : Abi) : DiffResult :=
  existingABI.tables.foldl (diffStep existingABI newAbi)
    { removed := [], updated := [] }

/-- The rows returned by one `get_table_by_scope` probe; their content is
irrelevant, only the count is inspected. -/
abbrev TableRow := Unit

/-- One chain read probe: either the query throws (`Except.error`) or
returns its row list. -/
abbrev TableQuery := String → Except Unit (List TableRow)

/-- The `try`/`catch` body of one probe inside `checkDataExists`: `true`
when `get_table_by_scope` succeeds with `res.rows.length > 0`; a thrown
probe is caught and yields `false` ("no data"). -/
def probeHasData (query : TableQuery) (tableName : String) : Bool :=
  match query tableName with
  | .ok res => decide (0 < res.length)
  | .error _ => false

/-- Model of `checkDataExists(account, tables)` with the chain read oracle made
explicit: map every table name to itself when its probe reports data and
to `null` (`none`) otherwise, then drop the `null` placeholders
(`data.filter(item => item !== null)` followed by the cast to `string[]`
is `filterMap id`). -/
def checkDataExists (query : TableQuery) (tables : List String) :
    List String :=
  let data := tables.map (fun tableName =>
    if probeHasData query tableName then some tableName else none)
  data.filterMap id

/-- The classifier's matcher: the source keeps either a plain string
(matched as a case-insensitive substring) or a regular expression with
the `i` flag.  Every regular expression in the table is an alternation of
literal substrings, embedded as the list of its alternatives. -/
inductive Matcher where
  | str (s : String)
  | regexAlts (alts : List String)
deriving DecidableEq, Repr

/-- Whether `needle` occurs contiguously inside `haystack`. -/
def listContainsSub (needle haystack : List Char) : Bool :=
  haystack.tails.any (fun t => needle.isPrefixOf t)

/-- The characters of a string, lowercased (JS `toLowerCase()` on the
ASCII strings the classifier deals in). -/
def lowerChars (s : String) : List Char :=
  s.toList.map Char.toLower

/-- Case-insensitive substring test (JS
`haystack.toLowerCase().includes(needle.toLowerCase())`). -/
def ciContains (haystack needle : String) : Bool :=
  listContainsSub (lowerChars needle) (lowerChars haystack)

/-- Whether a matcher fires on an error message: a string matcher is a
case-insensitive substring test; a regex matcher (`pattern.test`) fires
when any of its literal alternatives occurs, case-insensitively. -/
def matcherTest (m : Matcher) (errorMessage : String) : Bool :=
  match m with
  | .str s => ciContains errorMessage s
  | .regexAlts alts => alts.any (fun a => ciContains errorMessage a)

/-- One entry of the hint table. -/
structure ErrorHint where
  pattern : Matcher
  hint : String
deriving DecidableEq, Repr

/-- The ordered `ERROR_HINTS` table, verbatim from the source. -/
def ERROR_HINTS : List ErrorHint := [
  ⟨.regexAlts ["insufficient ram"],
   "Try buying more RAM: proton ram:buy <account> <account> <bytes>"⟩,
  ⟨.regexAlts ["tx_cpu_usage_exceeded", "billed CPU time"],
   "CPU limit exceeded. Wait a few minutes for your CPU to reset, or stake more XPR for resources."⟩,
  ⟨.regexAlts ["tx_net_usage_exceeded"],
   "NET limit exceeded. Wait a few minutes for your NET to reset, or stake more XPR for resources."⟩,
  ⟨.regexAlts ["unknown key"],
   "The signing key is not available. Make sure you have added the correct private key: proton key:add"⟩,
  ⟨.regexAlts ["overdrawn balance", "insufficient funds"],
   "Insufficient token balance for this transaction."⟩,
  ⟨.regexAlts ["missing authority", "missing required authority"],
   "You don't have permission to perform this action. Check the account and permission."⟩,
  ⟨.regexAlts ["deadline exceeded"],
   "Transaction timed out. The network may be congested, try again."⟩,
  ⟨.regexAlts ["duplicate transaction"],
   "This exact transaction was already submitted. Wait a moment before retrying."⟩,
  ⟨.regexAlts ["account does not exist"],
   "The specified account doesn't exist on this network."⟩]

/-- The `for … of` loop of `getHintForError` over an arbitrary hint
table: return the hint of the first entry whose matcher fires, else
`null`. -/
def getHintLoop (hints : List ErrorHint) (errorMessage : String) :
    Option String :=
  match hints with
  | [] => none
  | h :: rest =>
    if matcherTest h.pattern errorMessage then some h.hint
    else getHintLoop rest errorMessage

/-- Model of `getHintForError(errorMessage)`: the loop run over `ERROR_HINTS`. -/
def getHintForError (errorMessage : String) : Option String :=
  getHintLoop ERROR_HINTS errorMessage

/-- Error thrown by `getDeployableFilesFromDir` when scanning the
resolved directory: `artifactNotFound ext dir` embeds
`Cannot find a ".<ext> file" in <dir>`, `ambiguousArtifacts dir` embeds
`Directory <dir> must contain only 1 WASM and 1 ABI`. -/
inductive ResolveError where
  | artifactNotFound (ext : String) (dir : String)
  | ambiguousArtifacts (dir : String)
deriving DecidableEq, Repr

/-- The filename filter `/.*\.(ext)$/gi`: the name ends with `.<ext>`,
case-insensitively. -/
def matchesExt (ext : String) (filePath : String) : Bool :=
  (lowerChars ("." ++ ext)).isSuffixOf (lowerChars filePath)

/-- The directory-scan half of `getDeployableFilesFromDir`, with the
directory listing (`readdirSync(dir)`) passed in.  Checks run in source
order: missing `.wasm`, then missing `.abi`, then ambiguity; on success
the single match of each kind is returned joined to the directory.  (The
list is provably a singleton in the success branch; `head?.getD ""`
embeds the JS `wasms[0]` indexing.) -/
def getDeployableFilesFromDirScan (dir : String) (dirCont : List String) :
    Except ResolveError (String × String) :=
  let wasms := dirCont.filter (matchesExt "wasm")
  let abis := dirCont.filter (matchesExt "abi")
  if wasms.length = 0 then
    .error (.artifactNotFound "wasm" dir)
  else if abis.length = 0 then
    .error (.artifactNotFound "abi" dir)
  else if wasms.length > 1 ∨ abis.length > 1 then
    .error (.ambiguousArtifacts dir)
  else
    .ok (dir ++ "/" ++ (wasms.head?.getD ""), dir ++ "/" ++ (abis.head?.getD ""))

/-- The command's four boolean flags. -/
structure Flags where
  clear : Bool
  abiOnly : Bool
  wasmOnly : Bool
  disableInline : Bool
deriving DecidableEq, Repr

/-- Outcome of `getDeployableFilesFromDir(args.source)` as the pipeline
sees it.  In the source a staging directory is created only on the remote
(GitHub) branch and is reported through the `tmpFolder` field, with the
empty string standing for "no staging directory" (the local branch keeps
the initial `let tmpFolder = ''`); a throw from the directory scan
propagates out after the staging directory (if any) was already
created. -/
inductive ResolveOutcome where
  | ok (wasmPath abiPath : String) (tmpFolder : String)
  | failed (tmpFolderCreated : String)
deriving DecidableEq, Repr

/-- Observable steps of one pipeline run, in execution order. -/
inductive Event where
  | setcodeAttempt
  | codeErrorReported
  | setabiAttempt
  | abiErrorReported
  | enableAttempt
  | cleanupStaging (folder : String)
deriving DecidableEq, Repr

/-- How one pipeline run terminates.  The three `threw…` outcomes embed
an exception escaping `run()` (the corresponding `await` is not wrapped
in any `try`); the two `aborted…` outcomes are operator declines; `done`
is a normal return with deployment permitted. -/
inductive Outcome where
  | networkMismatchError
  | abortedAtDeployPrompt
  | threwResolve
  | threwFetchAbi
  | threwSerialize
  | abortedAtRiskPrompt
  | done
deriving DecidableEq, Repr

/-- Everything external to one `SetContract.run` invocation: flags,
`.contract` presets, operator answers, and the outcomes of the awaited
collaborator calls. -/
structure RunEnv where
  flags : Flags
  /-- The `.contract` file supplied `ACCOUNT`, so the initial prompt is skipped. -/
  presetConfirmed : Bool
  /-- The `.contract` file supplied a `NETWORK` different from the connected
  chain. -/
  networkMismatch : Bool
  /-- Operator's answer to the initial deploy confirmation. -/
  promptDeploy : Bool
  /-- Outcome of artifact resolution. -/
  resolve : ResolveOutcome
  /-- Outcome of `network.rpc.get_abi`: throws, or returns a record whose `abi`
  field may be absent ("no existing schema"). -/
  fetchAbi : Except Unit (Option Abi)
  /-- The candidate schema parsed from the resolved ABI file
  (`abiFields`). -/
  candidateAbi : Abi
  /-- The per-table `get_table_by_scope` oracle used by
  `checkDataExists`. -/
  query : TableQuery
  /-- Operator's answer to the risk confirmation. -/
  promptRisk : Bool
  /-- Whether `abiDefinition.serialize` succeeds (it throws on a schema
  it cannot encode). -/
  serializeOk : Bool
  /-- Whether the `setcode` transaction succeeds (a throw is caught and
  classified). -/
  setcodeOk : Bool
  /-- Whether the `setabi` transaction succeeds (a throw is caught and
  classified). -/
  setabiOk : Bool

/-- Final state of one run: the observable events in order, the terminal
outcome, whether a staging directory was created at any point, and
whether `rmSync` was executed on it. -/
structure RunResult where
  events : List Event
  outcome : Outcome
  stagingCreated : Bool
  stagingRemoved : Bool
deriving DecidableEq, Repr

/-- Steps 3–5 of the run (lines shared by the clear and deploy paths):
`setcode` unless `abiOnly`, with a caught-and-classified failure, then
`setabi` unless `wasmOnly`, likewise, then the inline-actions enablement
unless `disableInline`. -/
def submissionEvents (flags : Flags) (setcodeOk setabiOk : Bool) :
    List Event :=
  (if !flags.abiOnly then
    [Event.setcodeAttempt] ++ (if !setcodeOk then [Event.codeErrorReported] else [])
  else []) ++
  (if !flags.wasmOnly then
    [Event.setabiAttempt] ++ (if !setabiOk then [Event.abiErrorReported] else [])
  else []) ++
  (if !flags.disableInline then [Event.enableAttempt] else [])

/-- The risk-warning tables of the run: for each non-empty category of
the diff, the subset of its tables currently holding rows.  Matches the
two guarded `checkDataExists` calls of the source (the probe is only
issued when the category is non-empty). -/
def riskTables (query : TableQuery) (existingAbi candidateAbi : Abi) :
    List String × List String :=
  let tablesToCheck := compareTables existingAbi candidateAbi
  ((if 0 < tablesToCheck.removed.length then
      checkDataExists query tablesToCheck.removed else []),
   (if 0 < tablesToCheck.updated.length then
      checkDataExists query tablesToCheck.updated else []))

/-- The run's `canDeploy` after the risk-checking phase: with no
existing schema (`existingABI.abi` absent) diffing and probing are
skipped and deployment stays permitted; otherwise, when either probe
list is non-empty a warning was printed and the operator's answer to the
risk confirmation decides; an empty warning leaves `canDeploy` true. -/
def deployPermitted (env : RunEnv) (existingAbiOpt : Option Abi) : Bool :=
  match existingAbiOpt with
  | none => true
  | some existingAbi =>
    if 0 < (riskTables env.query existingAbi env.candidateAbi).1.length ||
        0 < (riskTables env.query existingAbi env.candidateAbi).2.length then
      env.promptRisk
    else true

/-- The final cleanup step: `rmSync(folderToCleanup, {recursive: true})`
guarded by JS truthiness of the folder string. -/
def cleanupEvents (tmp : String) : List Event :=
  if tmp != "" then [Event.cleanupStaging tmp] else []

/-- Model of `SetContract.run`, with all effects made explicit.  Control flow in
source order: network-mismatch refusal; initial confirmation (skipped
when preset); on `clear`, straight to the shared submission block with
empty payloads and no staging; otherwise resolution (a throw escapes),
schema fetch (a throw escapes), diff + risk probing + risk confirmation
when a warning was produced, serialization (a throw escapes — it runs
even when the risk prompt was declined, before `folderToCleanup` is
assigned), then the submission block only when deployment is still
permitted, and finally `rmSync` on the staging directory when
`folderToCleanup` is non-empty. -/
def SetContractRun (env : RunEnv) : RunResult :=
  if env.networkMismatch then
    { events := [], outcome := .networkMismatchError,
      stagingCreated := false, stagingRemoved := false }
  else if !(env.presetConfirmed || env.promptDeploy) then
    { events := [], outcome := .abortedAtDeployPrompt,
      stagingCreated := false, stagingRemoved := false }
  else if env.flags.clear then
    { events := submissionEvents env.flags env.setcodeOk env.setabiOk,
      outcome := .done, stagingCreated := false, stagingRemoved := false }
  else
    match env.resolve with
    | .failed tmp =>
      { events := [], outcome := .threwResolve,
        stagingCreated := tmp != "", stagingRemoved := false }
    | .ok _ _ tmp =>
      match env.fetchAbi with
      | .error _ =>
        { events := [], outcome := .threwFetchAbi,
          stagingCreated := tmp != "", stagingRemoved := false }
      | .ok existingAbiOpt =>
        if !env.serializeOk then
          { events := [], outcome := .threwSerialize,
            stagingCreated := tmp != "", stagingRemoved := false }
        else if deployPermitted env existingAbiOpt then
          { events := submissionEvents env.flags env.setcodeOk env.setabiOk
              ++ cleanupEvents tmp,
            outcome := .done,
            stagingCreated := tmp != "", stagingRemoved := tmp != "" }
        else
          { events := cleanupEvents tmp, outcome := .abortedAtRiskPrompt,
            stagingCreated := tmp != "", stagingRemoved := tmp != "" }

/-- Spec-side condition under which `diffStep` classifies a table of the
existing schema as removed: its name has no match among the candidate's
tables. -/
def removedCond (newAbi : Abi) (table : AbiTable) : Bool :=
  (newAbi.tables.find? (fun item => item.name == table.name)).isNone

/-- Spec-side condition under which `diffStep` classifies a table of the
existing schema as updated: its name has a match among the candidate's
tables but the two record-descriptor lookups (both under the existing
table's `type`) disagree. -/
def updatedCond (existingABI newAbi : Abi) (table : AbiTable) : Bool :=
  !(removedCond newAbi table) &&
    !(extractStruct existingABI.structs table.type ==
      extractStruct newAbi.structs table.type)

/-- An existing schema whose only table references record descriptor
`"r"` while the record list is empty: both differ lookups miss. -/
def missingRecordExisting : Abi :=
  { structs := [], tables := [{ name := "t", type := "r" }] }

/-- A candidate schema carrying the same table name (with an arbitrary
record-type field of its own) and an empty record list. -/
def missingRecordCandidate : Abi :=
  { structs := [], tables := [{ name := "t", type := "other" }] }

/-- An existing schema whose table's record descriptor resolves. -/
def oneMissExisting : Abi :=
  { structs := [{ name := "r", base := "", fields := [] }],
    tables := [{ name := "t", type := "r" }] }

/-- A candidate schema sharing the table name but missing the record
descriptor `"r"`: exactly one of the two differ lookups misses. -/
def oneMissCandidate : Abi :=
  { structs := [], tables := [{ name := "t", type := "r" }] }

/-- A candidate schema for the record-type-name experiment: same table
name and structs as `oneMissCandidate`, different `type` field. -/
def retypedCandidate : Abi :=
  { structs := [], tables := [{ name := "t", type := "zzz" }] }

/-- A chain read oracle whose every probe succeeds with one row. -/
def alwaysRowQuery : TableQuery := fun _ => .ok [()]

/-- A pipeline environment whose artifact resolution throws after the
staging directory `/tmp/foo-1` was created (e.g. a remote source whose
download 404s, so the scan of the fresh staging directory finds no
artifact). -/
def envLeak : RunEnv :=
  { flags := { clear := false, abiOnly := false, wasmOnly := false,
               disableInline := false },
    presetConfirmed := true, networkMismatch := false, promptDeploy := true,
    resolve := .failed "/tmp/foo-1", fetchAbi := .ok none,
    candidateAbi := { structs := [], tables := [] },
    query := fun _ => .ok [], promptRisk := true, serializeOk := true,
    setcodeOk := true, setabiOk := true }

/-- A pipeline environment for a clean remote first deployment: staging
directory created, resolution and schema fetch succeed, no existing
schema, serialization succeeds. -/
def envClean : RunEnv :=
  { flags := { clear := false, abiOnly := false, wasmOnly := false,
               disableInline := false },
    presetConfirmed := true, networkMismatch := false, promptDeploy := true,
    resolve := .ok "/tmp/foo-2/c.wasm" "/tmp/foo-2/c.abi" "/tmp/foo-2",
    fetchAbi := .ok none,
    candidateAbi := { structs := [], tables := [] },
    query := fun _ => .ok [], promptRisk := true, serializeOk := true,
    setcodeOk := true, setabiOk := true }

/-- A pipeline environment in which the `setcode` transaction fails while
nothing suppresses either submission. -/
def envCodeFails : RunEnv :=
  { flags := { clear := false, abiOnly := false, wasmOnly := false,
               disableInline := false },
    presetConfirmed := true, networkMismatch := false, promptDeploy := true,
    resolve := .ok "w" "a" "",
    fetchAbi := .ok none,
    candidateAbi := { structs := [], tables := [] },
    query := fun _ => .ok [], promptRisk := true, serializeOk := true,
    setcodeOk := false, setabiOk := true }

/-- A pipeline environment with both `abiOnly` and `wasmOnly` requested
on a run that completes normally with a staging directory. -/
def envBothOnly : RunEnv :=
  { flags := { clear := false, abiOnly := true, wasmOnly := true,
               disableInline := false },
    presetConfirmed := true, networkMismatch := false, promptDeploy := true,
    resolve := .ok "/tmp/foo-3/c.wasm" "/tmp/foo-3/c.abi" "/tmp/foo-3",
    fetchAbi := .ok none,
    candidateAbi := { structs := [], tables := [] },
    query := fun _ => .ok [], promptRisk := true, serializeOk := true,
    setcodeOk := true, setabiOk := true }

/-- The run's event trace projected to the two chain-replacement
submissions (`setcode`, `setabi`). -/
def submissionTrace (env : RunEnv) : List Event :=
  (SetContractRun env).events.filter
    (fun e => e == Event.setcodeAttempt || e == Event.setabiAttempt)

/-! ## Differ lemmas -/

/-- Unrolling the fold of `compareTables`, `removed` component: the
names of the folded tables whose name has no match among the candidate's
tables, appended in order. -/
theorem foldl_diffStep_removed (e c : Abi) (ts : List AbiTable)
    (acc : DiffResult) :
    (ts.foldl (diffStep e c) acc).removed =
      acc.removed ++ ts.filterMap (fun t =>
        if removedCond c t then some t.name else none) := by
  induction ts generalizing acc with
  | nil => simp
  | cons t ts ih =>
    rw [List.foldl_cons, ih, List.filterMap_cons]
    cases hrem : removedCond c t with
    | true =>
      have h1 : (c.tables.find? (fun item => item.name == t.name)).isNone
          = true := hrem
      simp only [diffStep, h1]
      simp
    | false =>
      have h1 : (c.tables.find? (fun item => item.name == t.name)).isNone
          = false := hrem
      simp only [diffStep, h1]
      by_cases hu : extractStruct e.structs t.type = extractStruct c.structs t.type
      · simp [hu]
      · simp [hu]

/-- Unrolling the fold of `compareTables`, `updated` component: the
names of the folded tables whose name matches a candidate table while
the two record lookups disagree, appended in order. -/
theorem foldl_diffStep_updated (e c : Abi) (ts : List AbiTable)
    (acc : DiffResult) :
    (ts.foldl (diffStep e c) acc).updated =
      acc.updated ++ ts.filterMap (fun t =>
        if updatedCond e c t then some t.name else none) := by
  induction ts generalizing acc with
  | nil => simp
  | cons t ts ih =>
    rw [List.foldl_cons, ih, List.filterMap_cons]
    cases hrem : removedCond c t with
    | true =>
      have h1 : (c.tables.find? (fun item => item.name == t.name)).isNone
          = true := hrem
      have h2 : updatedCond e c t = false := by
        unfold updatedCond
        rw [hrem]
        rfl
      simp only [diffStep, h1, h2]
      simp
    | false =>
      have h1 : (c.tables.find? (fun item => item.name == t.name)).isNone
          = false := hrem
      simp only [diffStep, h1]
      by_cases hu : extractStruct e.structs t.type = extractStruct c.structs t.type
      · have h2 : updatedCond e c t = false := by
          unfold updatedCond
          rw [hrem, hu]
          simp
        simp [hu, h2]
      · have h2 : updatedCond e c t = true := by
          unfold updatedCond
          rw [hrem]
          simp [hu]
        simp [hu, h2]

/-- The `removed` list of the differ, in closed form. -/
theorem compareTables_removed (e c : Abi) :
    (compareTables e c).removed = e.tables.filterMap (fun t =>
      if removedCond c t then some t.name else none) := by
  rw [compareTables, foldl_diffStep_removed]
  rfl

/-- The `updated` list of the differ, in closed form. -/
theorem compareTables_updated (e c : Abi) :
    (compareTables e c).updated = e.tables.filterMap (fun t =>
      if updatedCond e c t then some t.name else none) := by
  rw [compareTables, foldl_diffStep_updated]
  rfl

/-- C6: diffing any schema against itself yields an empty result — no
removed tables and no updated tables. -/
theorem C6_diff_self_empty (S : Abi) :
    compareTables S S = { removed := [], updated := [] } := by
  have h1 : (compareTables S S).removed = [] := by
    rw [compareTables_removed]
    rw [List.filterMap_eq_nil_iff]
    intro t ht
    have hfalse : removedCond S t = false := by
      unfold removedCond
      cases h : S.tables.find? (fun item => item.name == t.name) with
      | none =>
        have hsome : (S.tables.find?
            (fun item => item.name == t.name)).isSome = true :=
          List.find?_isSome.mpr ⟨t, ht, beq_self_eq_true t.name⟩
        rw [h] at hsome
        simp at hsome
      | some v => rfl
    rw [hfalse]
    simp
  have h2 : (compareTables S S).updated = [] := by
    rw [compareTables_updated]
    rw [List.filterMap_eq_nil_iff]
    intro t ht
    have hfalse : updatedCond S S t = false := by
      unfold updatedCond
      simp
    rw [hfalse]
    simp
  have heta : compareTables S S =
      { removed := (compareTables S S).removed,
        updated := (compareTables S S).updated } := rfl
  rw [heta, h1, h2]

/-- C3 (counterexample): a table present in both schemas whose
record-descriptor lookup misses in *both* record lists is **not**
classified as updated — `isEqual(undefined, undefined)` holds, so the
table counts as unchanged, contradicting the claim that any lookup miss
lands in "updated". -/
theorem C3_counterexample :
    (missingRecordCandidate.tables.find?
        (fun item => item.name == "t")).isSome = true ∧
    extractStruct missingRecordExisting.structs "r" = none ∧
    extractStruct missingRecordCandidate.structs "r" = none ∧
    "t" ∉ (compareTables missingRecordExisting missingRecordCandidate).updated := by
  decide

/-- C3 (amended): if the table name is present in both schemas and the
record-descriptor lookup misses in exactly one of the two record lists
(one side resolves, the other does not), the differ classifies the table
as updated. -/
theorem C3_one_sided_miss_updated (e c : Abi) (t : AbiTable)
    (ht : t ∈ e.tables)
    (hpresent : (c.tables.find? (fun item => item.name == t.name)).isSome = true)
    (hmiss : (extractStruct e.structs t.type).isSome ≠
      (extractStruct c.structs t.type).isSome) :
    t.name ∈ (compareTables e c).updated := by
  rw [compareTables_updated, List.mem_filterMap]
  refine ⟨t, ht, ?_⟩
  have h1 : removedCond c t = false := by
    unfold removedCond
    cases h : c.tables.find? (fun item => item.name == t.name) with
    | none => rw [h] at hpresent; simp at hpresent
    | some v => rfl
  have h2 : ¬ (extractStruct e.structs t.type = extractStruct c.structs t.type) := by
    intro heq
    exact hmiss (by rw [heq])
  have h3 : updatedCond e c t = true := by
    unfold updatedCond
    rw [h1]
    simp [h2]
  rw [h3]
  simp

/-- Witness for the amended C3: the existing schema resolves record `"r"`
for table `"t"` while the candidate's record list misses it, and the
differ reports `"t"` as updated. -/
theorem C3_one_sided_miss_updated_witness :
    "t" ∈ (compareTables oneMissExisting oneMissCandidate).updated :=
  C3_one_sided_miss_updated oneMissExisting oneMissCandidate
    { name := "t", type := "r" } (by decide) (by decide) (by decide)

/-- Whether a name-keyed `find?` succeeds depends only on the list of
names: two table lists with the same names (in order) agree on every
lookup's emptiness. -/
theorem find?_name_isNone_congr (l l' : List AbiTable) (n : String)
    (h : l.map (fun t => t.name) = l'.map (fun t => t.name)) :
    (l.find? (fun item => item.name == n)).isNone =
      (l'.find? (fun item => item.name == n)).isNone := by
  induction l generalizing l' with
  | nil =>
    cases l' with
    | nil => rfl
    | cons t' ts' => simp at h
  | cons t ts ih =>
    cases l' with
    | nil => simp at h
    | cons t' ts' =>
      simp only [List.map_cons, List.cons.injEq] at h
      obtain ⟨h1, h2⟩ := h
      cases hb : (t'.name == n) with
      | true =>
        have hbt : (t.name == n) = true := by rw [h1]; exact hb
        have e1 : List.find? (fun item => item.name == n) (t :: ts)
            = some t := List.find?_cons_of_pos ts (by exact hbt)
        have e2 : List.find? (fun item => item.name == n) (t' :: ts')
            = some t' := List.find?_cons_of_pos ts' (by exact hb)
        rw [e1, e2]
        rfl
      | false =>
        have hbt : (t.name == n) = false := by rw [h1]; exact hb
        have e1 : List.find? (fun item => item.name == n) (t :: ts)
            = List.find? (fun item => item.name == n) ts :=
          List.find?_cons_of_neg ts (by simp [hbt])
        have e2 : List.find? (fun item => item.name == n) (t' :: ts')
            = List.find? (fun item => item.name == n) ts' :=
          List.find?_cons_of_neg ts' (by simp [hb])
        rw [e1, e2]
        exact ih ts' h2

/-- C10: the differ never consults the candidate table's own record-type
field — both record lookups run under the *existing* table's type name.
Replacing the candidate's `type` fields arbitrarily (keeping table names
and the record list) leaves the whole diff unchanged. -/
theorem C10_candidate_type_irrelevant (e c cAlt : Abi)
    (hstructs : c.structs = cAlt.structs)
    (hnames : c.tables.map (fun t => t.name) =
      cAlt.tables.map (fun t => t.name)) :
    compareTables e c = compareTables e cAlt := by
  have hrc : ∀ t : AbiTable, removedCond c t = removedCond cAlt t := by
    intro t
    unfold removedCond
    exact find?_name_isNone_congr c.tables cAlt.tables t.name hnames
  have huc : ∀ t : AbiTable, updatedCond e c t = updatedCond e cAlt t := by
    intro t
    unfold updatedCond
    rw [hstructs, hrc t]
  have hR : (compareTables e c).removed = (compareTables e cAlt).removed := by
    rw [compareTables_removed, compareTables_removed]
    have hfun : (fun t : AbiTable =>
        if removedCond c t then some t.name else none) =
        (fun t : AbiTable =>
          if removedCond cAlt t then some t.name else none) := by
      funext t
      rw [hrc t]
    rw [hfun]
  have hU : (compareTables e c).updated = (compareTables e cAlt).updated := by
    rw [compareTables_updated, compareTables_updated]
    have hfun : (fun t : AbiTable =>
        if updatedCond e c t then some t.name else none) =
        (fun t : AbiTable =>
          if updatedCond e cAlt t then some t.name else none) := by
      funext t
      rw [huc t]
    rw [hfun]
  have heta1 : compareTables e c =
      { removed := (compareTables e c).removed,
        updated := (compareTables e c).updated } := rfl
  have heta2 : compareTables e cAlt =
      { removed := (compareTables e cAlt).removed,
        updated := (compareTables e cAlt).updated } := rfl
  rw [heta1, heta2, hR, hU]

/-- Witness for C10: changing the candidate table's `type` field from
`"r"` to `"zzz"` leaves the diff against `oneMissExisting` unchanged. -/
theorem C10_candidate_type_irrelevant_witness :
    compareTables oneMissExisting oneMissCandidate =
      compareTables oneMissExisting retypedCandidate :=
  C10_candidate_type_irrelevant oneMissExisting oneMissCandidate
    retypedCandidate rfl rfl

/-! ## Risk assessor lemmas -/

/-- The map-then-drop-nulls pipeline of `checkDataExists` equals the
filter of the input by the probe. -/
theorem checkDataExists_eq_filter (query : TableQuery)
    (tables : List String) :
    checkDataExists query tables = tables.filter (probeHasData query) := by
  induction tables with
  | nil => rfl
  | cons t ts ih =>
    unfold checkDataExists at ih ⊢
    rw [List.map_cons, List.filterMap_cons, List.filter_cons]
    cases h : probeHasData query t with
    | true => simp [ih]
    | false => simp [ih]

/-- C4: the risk assessor is total over its probe oracle — a failing
per-table query is absorbed as "no data" — and a table name appears in
its result exactly when it was asked about, its query succeeded, and the
query returned at least one row. -/
theorem C4_assessor_membership (query : TableQuery) (tables : List String)
    (t : String) :
    t ∈ checkDataExists query tables ↔
      t ∈ tables ∧ ∃ rows, query t = .ok rows ∧ 0 < rows.length := by
  rw [checkDataExists_eq_filter, List.mem_filter]
  constructor
  · rintro ⟨hmem, hprobe⟩
    refine ⟨hmem, ?_⟩
    unfold probeHasData at hprobe
    cases hq : query t with
    | ok rows =>
      rw [hq] at hprobe
      exact ⟨rows, rfl, by simpa using hprobe⟩
    | error e =>
      rw [hq] at hprobe
      simp at hprobe
  · rintro ⟨hmem, rows, hq, hrows⟩
    refine ⟨hmem, ?_⟩
    unfold probeHasData
    rw [hq]
    simpa using hrows

/-- C5 (counterexample): fed a duplicated table name whose probe reports
rows, the assessor returns the name twice — the result is not
duplicate-free for every input. -/
theorem C5_counterexample :
    checkDataExists alwaysRowQuery ["a", "a"] = ["a", "a"] ∧
    ¬ (checkDataExists alwaysRowQuery ["a", "a"]).Nodup := by
  constructor
  · rfl
  · decide

/-- C5 (amended): the assessor's result is a sublist of its input — so
it contains no null placeholders and no names it was not asked about,
and it is duplicate-free whenever the input list is. -/
theorem C5_sublist_nodup (query : TableQuery) (tables : List String) :
    (checkDataExists query tables).Sublist tables ∧
    (tables.Nodup → (checkDataExists query tables).Nodup) := by
  rw [checkDataExists_eq_filter]
  exact ⟨List.filter_sublist tables, fun h => h.filter _⟩

/-- Witness for the amended C5: on a duplicate-free input with a probe
that reports rows everywhere, the result is a duplicate-free sublist. -/
theorem C5_sublist_nodup_witness :
    (checkDataExists alwaysRowQuery ["a", "b"]).Sublist ["a", "b"] ∧
    (checkDataExists alwaysRowQuery ["a", "b"]).Nodup :=
  ⟨(C5_sublist_nodup alwaysRowQuery ["a", "b"]).1,
    (C5_sublist_nodup alwaysRowQuery ["a", "b"]).2 (by decide)⟩

/-! ## Classifier lemmas -/

/-- The early-return loop over any hint table is the first-match search:
the hint of the first entry whose matcher fires, else `none`. -/
theorem getHintLoop_eq_find? (hints : List ErrorHint) (msg : String) :
    getHintLoop hints msg =
      (hints.find? (fun entry => matcherTest entry.pattern msg)).map
        (fun entry => entry.hint) := by
  induction hints with
  | nil => rfl
  | cons h rest ih =>
    unfold getHintLoop
    cases hm : matcherTest h.pattern msg with
    | true =>
      have e1 : List.find? (fun entry => matcherTest entry.pattern msg)
          (h :: rest) = some h := List.find?_cons_of_pos rest (by exact hm)
      rw [e1]
      simp
    | false =>
      have e1 : List.find? (fun entry => matcherTest entry.pattern msg)
          (h :: rest) =
          List.find? (fun entry => matcherTest entry.pattern msg) rest :=
        List.find?_cons_of_neg rest (by simp [hm])
      rw [e1]
      simp [ih]

/-- C9: for every raw error message, `getHintForError` returns the hint
of the first entry of the ordered `ERROR_HINTS` table whose matcher
fires on the message (string matchers as case-insensitive substrings),
and `none` when no entry matches; as a total function it never
throws. -/
theorem C9_first_match_hint (errorMessage : String) :
    getHintForError errorMessage =
      (ERROR_HINTS.find?
        (fun entry => matcherTest entry.pattern errorMessage)).map
          (fun entry => entry.hint) :=
  getHintLoop_eq_find? ERROR_HINTS errorMessage

/-! ## Resolver theorems -/

/-- C7 (counterexample): a directory listing with two bytecode files and
no schema file has "more than one file of either kind", yet resolution
fails with the not-found error (for the schema extension), not the
ambiguity error — the zero-checks run first. -/
theorem C7_counterexample :
    1 < ((["a.wasm", "b.wasm"] : List String).filter
      (matchesExt "wasm")).length ∧
    getDeployableFilesFromDirScan "d" ["a.wasm", "b.wasm"] =
      .error (.artifactNotFound "abi" "d") := by
  exact ⟨by decide, by rfl⟩

/-- C7 (amended): resolution of a directory listing is classified by the
counts of bytecode- and schema-extension files, with the two zero-checks
running before the ambiguity check: a missing kind always reports
not-found (bytecode checked first), ambiguity is reported only when both
kinds are present and one is duplicated, and exactly one of each returns
the two joined paths. -/
theorem C7_scan_classification (dir : String) (dirCont : List String) :
    ((dirCont.filter (matchesExt "wasm")).length = 0 →
      getDeployableFilesFromDirScan dir dirCont =
        .error (.artifactNotFound "wasm" dir)) ∧
    ((dirCont.filter (matchesExt "wasm")).length ≠ 0 →
      (dirCont.filter (matchesExt "abi")).length = 0 →
      getDeployableFilesFromDirScan dir dirCont =
        .error (.artifactNotFound "abi" dir)) ∧
    ((dirCont.filter (matchesExt "wasm")).length ≠ 0 →
      (dirCont.filter (matchesExt "abi")).length ≠ 0 →
      ((dirCont.filter (matchesExt "wasm")).length > 1 ∨
        (dirCont.filter (matchesExt "abi")).length > 1) →
      getDeployableFilesFromDirScan dir dirCont =
        .error (.ambiguousArtifacts dir)) ∧
    ((dirCont.filter (matchesExt "wasm")).length = 1 →
      (dirCont.filter (matchesExt "abi")).length = 1 →
      getDeployableFilesFromDirScan dir dirCont =
        .ok (dir ++ "/" ++ ((dirCont.filter (matchesExt "wasm")).head?.getD ""),
          dir ++ "/" ++ ((dirCont.filter (matchesExt "abi")).head?.getD ""))) := by
  refine ⟨?_, ?_, ?_, ?_⟩
  · intro h1
    unfold getDeployableFilesFromDirScan
    rw [if_pos h1]
  · intro h1 h2
    unfold getDeployableFilesFromDirScan
    rw [if_neg h1, if_pos h2]
  · intro h1 h2 h3
    unfold getDeployableFilesFromDirScan
    rw [if_neg h1, if_neg h2, if_pos h3]
  · intro h1 h2
    unfold getDeployableFilesFromDirScan
    rw [if_neg (by omega), if_neg (by omega), if_neg (by omega)]

/-- Witness for the amended C7: a listing with exactly one file of each
kind resolves to the two joined paths. -/
theorem C7_scan_classification_witness :
    getDeployableFilesFromDirScan "d" ["a.wasm", "b.abi"] =
      .ok ("d/a.wasm", "d/b.abi") :=
  (C7_scan_classification "d" ["a.wasm", "b.abi"]).2.2.2 (by rfl) (by rfl)

/-! ## Pipeline lemmas -/

/-- The submission block projected to the two chain-replacement
operations: `setcode` (iff not suppressed) followed by `setabi` (iff not
suppressed), regardless of either transaction's success. -/
theorem submissionEvents_filter_subs (flags : Flags) (c a : Bool) :
    (submissionEvents flags c a).filter
        (fun e => e == Event.setcodeAttempt || e == Event.setabiAttempt) =
      (if !flags.abiOnly then [Event.setcodeAttempt] else []) ++
      (if !flags.wasmOnly then [Event.setabiAttempt] else []) := by
  obtain ⟨cl, ao, wo, di⟩ := flags
  unfold submissionEvents
  cases ao <;> cases wo <;> cases di <;> cases c <;> cases a <;> rfl

/-- The cleanup step contributes no submission event. -/
theorem cleanupEvents_filter_subs (tmp : String) :
    (cleanupEvents tmp).filter
        (fun e => e == Event.setcodeAttempt || e == Event.setabiAttempt) =
      [] := by
  unfold cleanupEvents
  split <;> rfl

/-- The code-replacement attempt occurs in the submission block exactly
when `abiOnly` is off, whatever the two transactions' outcomes. -/
theorem mem_submissionEvents_setcode (flags : Flags) (c a : Bool) :
    Event.setcodeAttempt ∈ submissionEvents flags c a ↔
      flags.abiOnly = false := by
  obtain ⟨cl, ao, wo, di⟩ := flags
  unfold submissionEvents
  cases cl <;> cases ao <;> cases wo <;> cases di <;> cases c <;> cases a <;>
    decide

/-- The schema-replacement attempt occurs in the submission block exactly
when `wasmOnly` is off, whatever the two transactions' outcomes. -/
theorem mem_submissionEvents_setabi (flags : Flags) (c a : Bool) :
    Event.setabiAttempt ∈ submissionEvents flags c a ↔
      flags.wasmOnly = false := by
  obtain ⟨cl, ao, wo, di⟩ := flags
  unfold submissionEvents
  cases cl <;> cases ao <;> cases wo <;> cases di <;> cases c <;> cases a <;>
    decide

/-- The enablement attempt occurs in the submission block exactly when
`disableInline` is off. -/
theorem mem_submissionEvents_enable (flags : Flags) (c a : Bool) :
    Event.enableAttempt ∈ submissionEvents flags c a ↔
      flags.disableInline = false := by
  obtain ⟨cl, ao, wo, di⟩ := flags
  unfold submissionEvents
  cases cl <;> cases ao <;> cases wo <;> cases di <;> cases c <;> cases a <;>
    decide

/-- The cleanup step contains no code-replacement attempt. -/
theorem setcode_not_mem_cleanupEvents (tmp : String) :
    Event.setcodeAttempt ∉ cleanupEvents tmp := by
  unfold cleanupEvents
  split <;> simp

/-- The cleanup step contains no schema-replacement attempt. -/
theorem setabi_not_mem_cleanupEvents (tmp : String) :
    Event.setabiAttempt ∉ cleanupEvents tmp := by
  unfold cleanupEvents
  split <;> simp

/-- Every run's event trace is one of: empty, cleanup only, the
submission block alone (clear mode), or the submission block followed by
cleanup. -/
theorem SetContractRun_events_cases (env : RunEnv) :
    (SetContractRun env).events = [] ∨
    (∃ tmp, (SetContractRun env).events = cleanupEvents tmp) ∨
    (∃ tmp, (SetContractRun env).events =
      submissionEvents env.flags env.setcodeOk env.setabiOk ++
        cleanupEvents tmp) ∨
    (SetContractRun env).events =
      submissionEvents env.flags env.setcodeOk env.setabiOk := by
  unfold SetContractRun
  split
  · left; rfl
  · split
    · left; rfl
    · split
      · right; right; right; rfl
      · split
        · left; rfl
        · split
          · left; rfl
          · split
            · left; rfl
            · split
              · right; right; left; exact ⟨_, rfl⟩
              · right; left; exact ⟨_, rfl⟩

/-- C2: in every run, the projection of the event trace to the two
chain-replacement submissions is one of `[]`, `[setcode]`, `[setabi]`
or `[setcode, setabi]` — the code replacement, when attempted, always
strictly precedes the schema replacement — and whenever the code
replacement was attempted and `wasmOnly` is off, the schema replacement
is also attempted, for every value of `setcodeOk` (a caught, classified
code failure does not stop the pipeline). -/
theorem C2_code_before_schema (env : RunEnv) :
    (submissionTrace env = [] ∨
      submissionTrace env = [Event.setcodeAttempt] ∨
      submissionTrace env = [Event.setabiAttempt] ∨
      submissionTrace env = [Event.setcodeAttempt, Event.setabiAttempt]) ∧
    (Event.setcodeAttempt ∈ (SetContractRun env).events →
      env.flags.wasmOnly = false →
      Event.setabiAttempt ∈ (SetContractRun env).events) := by
  have hcases := SetContractRun_events_cases env
  constructor
  · unfold submissionTrace
    rcases hcases with h | ⟨tmp, h⟩ | ⟨tmp, h⟩ | h <;> rw [h]
    · left; rfl
    · left; exact cleanupEvents_filter_subs tmp
    · rw [List.filter_append, submissionEvents_filter_subs,
        cleanupEvents_filter_subs, List.append_nil]
      cases hao : env.flags.abiOnly <;> cases hwo : env.flags.wasmOnly <;>
        simp
    · rw [submissionEvents_filter_subs]
      cases hao : env.flags.abiOnly <;> cases hwo : env.flags.wasmOnly <;>
        simp
  · intro hmem hwasm
    rcases hcases with h | ⟨tmp, h⟩ | ⟨tmp, h⟩ | h
    · rw [h] at hmem
      simp at hmem
    · rw [h] at hmem
      exact absurd hmem (setcode_not_mem_cleanupEvents tmp)
    · rw [h]
      rw [List.mem_append]
      left
      exact (mem_submissionEvents_setabi env.flags env.setcodeOk
        env.setabiOk).mpr hwasm
    · rw [h]
      exact (mem_submissionEvents_setabi env.flags env.setcodeOk
        env.setabiOk).mpr hwasm

/-- Witness for C2: a run whose `setcode` transaction fails still
attempts `setcode` first and `setabi` afterwards. -/
theorem C2_code_before_schema_witness :
    envCodeFails.setcodeOk = false ∧
    Event.setcodeAttempt ∈ (SetContractRun envCodeFails).events ∧
    Event.setabiAttempt ∈ (SetContractRun envCodeFails).events :=
  ⟨rfl, by decide,
    (C2_code_before_schema envCodeFails).2 (by decide) rfl⟩

/-- C8: when both `abiOnly` and `wasmOnly` are requested, neither the
code replacement nor the schema replacement is attempted (a vacuous
deploy), while the rest of the pipeline still runs: a run that completes
normally still attempts the enablement step (unless disabled) and still
removes any staging directory it created. -/
theorem C8_both_only_vacuous (env : RunEnv)
    (ha : env.flags.abiOnly = true) (hw : env.flags.wasmOnly = true) :
    Event.setcodeAttempt ∉ (SetContractRun env).events ∧
    Event.setabiAttempt ∉ (SetContractRun env).events ∧
    ((SetContractRun env).outcome = .done →
      (env.flags.disableInline = false →
        Event.enableAttempt ∈ (SetContractRun env).events) ∧
      ((SetContractRun env).stagingCreated = true →
        (SetContractRun env).stagingRemoved = true)) := by
  have hsc : Event.setcodeAttempt ∉
      submissionEvents env.flags env.setcodeOk env.setabiOk := by
    rw [mem_submissionEvents_setcode]
    simp [ha]
  have hsa : Event.setabiAttempt ∉
      submissionEvents env.flags env.setcodeOk env.setabiOk := by
    rw [mem_submissionEvents_setabi]
    simp [hw]
  unfold SetContractRun
  split
  · exact ⟨by simp, by simp, fun hdone => Outcome.noConfusion hdone⟩
  · split
    · exact ⟨by simp, by simp, fun hdone => Outcome.noConfusion hdone⟩
    · split
      · refine ⟨hsc, hsa, fun hdone => ⟨fun hdi => ?_, fun hcr => ?_⟩⟩
        · exact (mem_submissionEvents_enable env.flags env.setcodeOk
            env.setabiOk).mpr hdi
        · exact Bool.noConfusion hcr
      · split
        · exact ⟨by simp, by simp, fun hdone => Outcome.noConfusion hdone⟩
        · split
          · exact ⟨by simp, by simp, fun hdone => Outcome.noConfusion hdone⟩
          · split
            · exact ⟨by simp, by simp, fun hdone => Outcome.noConfusion hdone⟩
            · split
              · refine ⟨?_, ?_, fun hdone => ⟨fun hdi => ?_, fun hcr => ?_⟩⟩
                · simp only [List.mem_append]
                  rintro (h | h)
                  · exact hsc h
                  · exact setcode_not_mem_cleanupEvents _ h
                · simp only [List.mem_append]
                  rintro (h | h)
                  · exact hsa h
                  · exact setabi_not_mem_cleanupEvents _ h
                · simp only [List.mem_append]
                  left
                  exact (mem_submissionEvents_enable env.flags env.setcodeOk
                    env.setabiOk).mpr hdi
                · exact hcr
              · exact ⟨setcode_not_mem_cleanupEvents _,
                  setabi_not_mem_cleanupEvents _,
                  fun hdone => Outcome.noConfusion hdone⟩

/-- Witness for C8: a both-flags run that reaches `Done` with a staging
directory still attempts the enablement step and removes the staging
directory. -/
theorem C8_both_only_vacuous_witness :
    Event.enableAttempt ∈ (SetContractRun envBothOnly).events ∧
    (SetContractRun envBothOnly).stagingRemoved = true :=
  ⟨((C8_both_only_vacuous envBothOnly rfl rfl).2.2 (by rfl)).1 rfl,
    ((C8_both_only_vacuous envBothOnly rfl rfl).2.2 (by rfl)).2 (by rfl)⟩

/-- In every run, either no staging directory was ever created, or the
run ended in one of the three uncaught-exception outcomes, or cleanup
mirrors creation (`rmSync` ran on the created directory). -/
theorem SetContractRun_staging_cases (env : RunEnv) :
    ((SetContractRun env).stagingCreated = false ∧
      (SetContractRun env).stagingRemoved = false) ∨
    ((SetContractRun env).outcome = .threwResolve ∨
      (SetContractRun env).outcome = .threwFetchAbi ∨
      (SetContractRun env).outcome = .threwSerialize) ∨
    (SetContractRun env).stagingRemoved = (SetContractRun env).stagingCreated := by
  unfold SetContractRun
  split
  · left; exact ⟨rfl, rfl⟩
  · split
    · left; exact ⟨rfl, rfl⟩
    · split
      · left; exact ⟨rfl, rfl⟩
      · split
        · right; left; left; rfl
        · split
          · right; left; right; left; rfl
          · split
            · right; left; right; right; rfl
            · split
              · right; right; rfl
              · right; right; rfl

/-- C1 (counterexample): a run whose resolution throws after the staging
directory was created reaches a terminal state (the uncaught resolver
exception aborts the run) with the staging directory still on disk —
`rmSync` never ran. -/
theorem C1_counterexample :
    (SetContractRun envLeak).outcome = .threwResolve ∧
    (SetContractRun envLeak).stagingCreated = true ∧
    (SetContractRun envLeak).stagingRemoved = false :=
  ⟨rfl, rfl, rfl⟩

/-- C1 (amended): on every terminal state other than the three uncaught
exceptions (resolver throw, schema-fetch throw, serialization throw), a
run that created a staging directory has removed it — in particular on
normal completion and on both operator-decline aborts; the exception
paths leak the directory. -/
theorem C1_cleanup_unless_thrown (env : RunEnv)
    (h1 : (SetContractRun env).outcome ≠ .threwResolve)
    (h2 : (SetContractRun env).outcome ≠ .threwFetchAbi)
    (h3 : (SetContractRun env).outcome ≠ .threwSerialize)
    (hc : (SetContractRun env).stagingCreated = true) :
    (SetContractRun env).stagingRemoved = true := by
  rcases SetContractRun_staging_cases env with ⟨hcr, _⟩ | h | h
  · rw [hcr] at hc
    exact absurd hc (by decide)
  · rcases h with h | h | h
    · exact absurd h h1
    · exact absurd h h2
    · exact absurd h h3
  · rw [h, hc]

/-- Witness for the amended C1: a clean remote deployment that created
`/tmp/foo-2` removes it on completion. -/
theorem C1_cleanup_unless_thrown_witness :
    (SetContractRun envClean).stagingRemoved = true :=
  C1_cleanup_unless_thrown envClean (by decide) (by decide) (by decide)
    (by rfl)
